import Mathlib

/-!
Verification of the gait interactive agent loop.

The definitions below are a shallow embedding of the orchestration core of
the repository's chat scripts, chiefly `oia.py` (the OpenAI tool-calling
variant), with the executors of `cia.py` (Claude variant, 120 s timeout) and
`ochatb.py` (function-calling variant with decorated strings) where a claim
cites them.  Subprocess behaviour is abstracted by a `ShellOutcome` oracle
(how long the command runs, its exit status and captured streams, or the
exception its spawn raises), the model endpoint by a `Nat → Except String _`
oracle giving the response to the n-th completion request, and side effects
(spawn, kill, file writes) are recorded in an explicit effect list.  The
JSON text layer of the transcript snapshots is modelled by the `J` tree:
`json.dump`/`json.load` are mutually inverse between the Python values used
here (strings, booleans, `None`, lists, string-keyed dicts) and their JSON
texts, so persistence is modelled as encoding to and decoding from `J`.
-/

namespace Gait

/-- A parsed JSON scalar appearing in tool-call arguments
(`json.loads(tool_call.function.arguments)` in `oia.py`). -/
inductive ArgVal where
  | str (s : String)
  | bool (b : Bool)
deriving DecidableEq, Repr

/-- Parsed tool arguments: an ordered string-keyed dictionary. -/
abbrev Args := List (String × ArgVal)

/-- Python truthiness of an argument value, as used by
`if execute:` in `oia.py` `save_and_run_code_async`. -/
def truthy : ArgVal → Bool
  | ArgVal.str s => s ≠ ""
  | ArgVal.bool b => b

/-- Behaviour of the ambient shell on one command: either the spawned
process runs for `duration` seconds and exits with `returncode` producing
the captured streams, or spawning raises an exception with message `msg`. -/
inductive ShellOutcome where
  | runs (duration : Nat) (returncode : Int) (stdout stderr : String)
  | raises (msg : String)
deriving DecidableEq, Repr

/-- Side effects performed by the tool executors. -/
inductive Effect where
  | spawn (command : String)
  | kill (command : String)
  | fileWrite (path : String) (contents : String)
deriving DecidableEq, Repr

/-- Embedding of `execute_shell_command_async` (`oia.py` lines 69-84 and the
textually identical `cia.py` lines 82-97, which differ only in the `timeout`
constant: 30 in `oia.py`, 120 in `cia.py`).  The body spawns the command,
awaits `process.communicate()` under `asyncio.wait_for(..., timeout)`, and
returns a plain string in every branch; note that the
`except asyncio.TimeoutError` branch only returns the timeout message - it
performs no `kill`/`terminate` on the child, which is why no
`Effect.kill` ever appears in the effect list. -/
def execute_shell_command_async (timeout : Nat) (shell : String → ShellOutcome)
    (command : String) : String × List Effect :=
  match shell command with
  | ShellOutcome.raises msg => ("An error occurred: " ++ msg, [])
  | ShellOutcome.runs duration returncode stdout stderr =>
      if timeout < duration then
        ("Command execution timed out", [Effect.spawn command])
      else if returncode ≠ 0 then
        ("Command exited with non-zero status. Stderr: " ++ stderr,
         [Effect.spawn command])
      else
        (stdout, [Effect.spawn command])

/-- Embedding of `execute_shell_command_async` from `ochatb.py` lines 68-82:
same control flow as `oia.py` (timeout 30) but with decorated result
strings, and the success branch wraps the captured stdout. -/
def ochatb_execute_shell_command_async (shell : String → ShellOutcome)
    (command : String) : String × List Effect :=
  match shell command with
  | ShellOutcome.raises msg =>
      ("[31mWhoopsie! An error occurred: " ++ msg ++ "[0m", [])
  | ShellOutcome.runs duration returncode stdout stderr =>
      if 30 < duration then
        ("[31mUh-oh! The command got lost in the void of time. It's been more than 30 seconds![0m",
         [Effect.spawn command])
      else if returncode ≠ 0 then
        ("[31mOops! Command threw a tantrum. Stderr says:[0m " ++ stderr,
         [Effect.spawn command])
      else
        ("[32mCommand executed successfully! Here's the output:[0m\n" ++ stdout,
         [Effect.spawn command])

/-- Embedding of Python `str.lower()` on the language argument. -/
def strLower (s : String) : String := String.mk (s.data.map Char.toLower)

/-- The static language → extension table of `save_and_run_code_async`
(`oia.py` lines 90-102): `{...}.get(language.lower(), ".txt")`. -/
def extensionFor (language : String) : String :=
  let l := strLower language
  if l = "python" then ".py"
  else if l = "javascript" then ".js"
  else if l = "bash" then ".sh"
  else if l = "c" then ".c"
  else if l = "cpp" then ".cpp"
  else if l = "java" then ".java"
  else if l = "go" then ".go"
  else if l = "ruby" then ".rb"
  else if l = "perl" then ".pl"
  else if l = "php" then ".php"
  else if l = "rust" then ".rs"
  else ".txt"

/-- The keys of the language → extension table. -/
def knownLangs : List String :=
  ["python", "javascript", "bash", "c", "cpp", "java", "go", "ruby",
   "perl", "php", "rust"]

/-- The path chosen by `save_and_run_code_async`:
`self.script_dir / f"{filename}{extension}"` with
`script_dir = Path("./scripts")` and a `%Y%m%d_%H%M%S`-timestamped stem
(`now` abstracts `datetime.now().strftime(...)`). -/
def script_path (now language : String) : String :=
  "scripts/" ++ now ++ "_script" ++ extensionFor language

/-- Embedding of `save_and_run_code_async` (`oia.py` lines 86-121): write
the code to the timestamp-named file (recorded as an `Effect.fileWrite`,
performed before any execution check), then, when `execute` is set, pick a
runner for the `.py`/`.sh`/`.go`/`.rb` extensions or return the
unsupported-language message - which discards the "Code saved to ..."
prefix built beforehand. -/
def save_and_run_code_async (timeout : Nat) (shell : String → ShellOutcome)
    (now code language : String) (execute : Bool) : String × List Effect :=
  let filepath := script_path now language
  let extension := extensionFor language
  let writeEff := Effect.fileWrite filepath code
  let result := "Code saved to " ++ filepath
  if execute then
    let runner : Option String :=
      if extension = ".py" then some ("python3 " ++ filepath)
      else if extension = ".sh" then some ("bash " ++ filepath)
      else if extension = ".go" then some ("go run " ++ filepath)
      else if extension = ".rb" then some ("ruby " ++ filepath)
      else none
    match runner with
    | none => ("Execution not supported for language: " ++ language, [writeEff])
    | some command =>
        let execResult := execute_shell_command_async timeout shell command
        (result ++ "\nExecution result:\n" ++ execResult.1,
         writeEff :: execResult.2)
  else
    (result, [writeEff])

/-- The nested `function` object of an OpenAI tool call
(`tool_call.function` in `oia.py`), with its serialized `arguments`
already parsed into key/value form. -/
structure ToolFunction where
  name : String
  arguments : Args
deriving DecidableEq, Repr

/-- One tool call of an assistant response (`tool_call` in `oia.py`). -/
structure ToolCall where
  id : String
  function : ToolFunction
deriving DecidableEq, Repr

/-- A transcript entry of `self.messages` in `oia.py`: the user message
appended at line 199, the plain assistant message appended at line 233, the
dumped tool-call message appended at line 222 (`message.model_dump()`), and
the tool-result dict built in `process_tool_calls` lines 145-150. -/
inductive Msg where
  | user (content : String)
  | assistant (content : Option String)
  | assistantToolCalls (content : Option String) (tool_calls : List ToolCall)
  | toolResult (tool_call_id : String) (name : String) (content : String)
deriving DecidableEq, Repr

/-- The work a recognized tool call is turned into by the task-creation
pass of `process_tool_calls` (`oia.py` lines 124-136). -/
inductive ToolJob where
  | shell (command : String)
  | saveRun (code language : String) (execute : Bool)
deriving DecidableEq, Repr

/-- The `execute` flag: `args.get("execute", False)` followed by Python
truthiness at the `if execute:` use site. -/
def executeFlag (args : Args) : Bool :=
  match List.lookup "execute" args with
  | some v => truthy v
  | none => false

/-- The argument-decoding part of the task-creation pass of
`process_tool_calls` (`oia.py` lines 125-136).  A call named
`execute_shell_command` or `save_and_run_code` yields a job (or an
exception for a missing/ill-typed mandatory argument, which the `while`
loop's `except` in `send_message_async` turns into an aborted round); a
call with any other name matches no branch and is silently skipped:
`.ok none`, no task and no result. -/
def parse_tool_call (tc : ToolCall) : Except String (Option ToolJob) :=
  if tc.function.name = "execute_shell_command" then
    match List.lookup "command" tc.function.arguments with
    | some (ArgVal.str command) => Except.ok (some (ToolJob.shell command))
    | _ => Except.error "KeyError: command"
  else if tc.function.name = "save_and_run_code" then
    match List.lookup "code" tc.function.arguments with
    | some (ArgVal.str code) =>
        match List.lookup "language" tc.function.arguments with
        | some (ArgVal.str language) =>
            Except.ok (some (ToolJob.saveRun code language
              (executeFlag tc.function.arguments)))
        | some (ArgVal.bool _) => Except.error "AttributeError: lower"
        | none =>
            Except.ok (some (ToolJob.saveRun code "text"
              (executeFlag tc.function.arguments)))
    | _ => Except.error "KeyError: code"
  else
    Except.ok none

/-- First pass of `process_tool_calls` (`oia.py` lines 124-136): walk the
batch in order, keeping `(tool_call, task)` pairs for the recognized
names and dropping the rest. -/
def mk_tasks : List ToolCall → Except String (List (ToolCall × ToolJob))
  | [] => Except.ok []
  | tc :: rest =>
      match parse_tool_call tc with
      | Except.error e => Except.error e
      | Except.ok job =>
          match mk_tasks rest with
          | Except.error e => Except.error e
          | Except.ok tail =>
              match job with
              | some j => Except.ok ((tc, j) :: tail)
              | none => Except.ok tail

/-- The ambient environment of a session: the shell oracle and the
timestamp `datetime.now().strftime("%Y%m%d_%H%M%S")` returns. -/
structure ToolEnv where
  shell : String → ShellOutcome
  now : String

/-- Running one created task (`await task` in `oia.py` lines 139-142);
`oia.py` uses its 30-second shell timeout for both tools. -/
def run_tool_job (env : ToolEnv) : ToolJob → String
  | ToolJob.shell command => (execute_shell_command_async 30 env.shell command).1
  | ToolJob.saveRun code language execute =>
      (save_and_run_code_async 30 env.shell env.now code language execute).1

/-- Embedding of `process_tool_calls` (`oia.py` lines 123-151): create all
tasks first, then collect one result dict per created task, in batch
order.  An uncaught exception (missing mandatory argument) propagates to
the caller. -/
def process_tool_calls (env : ToolEnv) (tool_calls : List ToolCall) :
    Except String (List Msg) :=
  (mk_tasks tool_calls).map fun tasks =>
    tasks.map fun t =>
      Msg.toolResult t.1.id t.1.function.name (run_tool_job env t.2)

/-- A chat-completion response message (`response.choices[0].message`):
its `content` (possibly `None`) and its `tool_calls` (`None`/empty
modelled as `[]`, matching the `if message.tool_calls` truthiness test). -/
structure OAMessage where
  content : Option String
  tool_calls : List ToolCall
deriving DecidableEq, Repr

/-- `MAX_TOOL_CALLS = 128` (`oia.py` line 28). -/
def MAX_TOOL_CALLS : Nat := 128

/-- Result of one `send_message_async` run: the final `self.messages`, the
transcript snapshot passed to each chat-completion request in order (the
constant system-prompt prelude is omitted), and the error message printed
by an `except` branch, if any. -/
structure LoopState where
  messages : List Msg
  submitted : List (List Msg)
  err : Option String
deriving DecidableEq, Repr

/-- Embedding of the `while True:` loop of `send_message_async` (`oia.py`
lines 216-239).  `remaining` is `MAX_TOOL_CALLS - tool_call_count`, so the
`tool_call_count < MAX_TOOL_CALLS` test becomes `remaining > 0`; `idx`
indexes the next chat-completion request in the gateway oracle `gw`.  The
tool branch appends the dumped assistant message and the batch results,
then issues the next request; an exception from `process_tool_calls` or
from the request is caught by the loop's `except` (print and `break`,
leaving `self.messages` as already appended); the other branch appends
`{"role": "assistant", "content": message.content}` - the bare content,
even when the message still carried tool calls - and breaks. -/
def tool_loop (gw : Nat → Except String OAMessage) (env : ToolEnv) :
    Nat → Nat → OAMessage → List Msg → List (List Msg) → LoopState
  | 0, _, message, msgs, subm =>
      ⟨msgs ++ [Msg.assistant message.content], subm, none⟩
  | remaining + 1, idx, message, msgs, subm =>
      if message.tool_calls.isEmpty then
        ⟨msgs ++ [Msg.assistant message.content], subm, none⟩
      else
        match process_tool_calls env message.tool_calls with
        | Except.error e => ⟨msgs, subm, some e⟩
        | Except.ok results =>
            let msgs' := msgs ++
              Msg.assistantToolCalls message.content message.tool_calls :: results
            match gw idx with
            | Except.error e => ⟨msgs', subm ++ [msgs'], some e⟩
            | Except.ok next =>
                tool_loop gw env remaining (idx + 1) next msgs' (subm ++ [msgs'])

/-- Embedding of `send_message_async` (`oia.py` lines 153-245): append the
user turn, issue the first chat-completion request (an exception is caught
at lines 210-212: print and return, with only the user turn appended), then
run the tool loop with `tool_call_count = 0`. -/
def send_message_async (gw : Nat → Except String OAMessage) (env : ToolEnv)
    (maxToolCalls : Nat) (msgs : List Msg) (content : String) : LoopState :=
  let msgs1 := msgs ++ [Msg.user content]
  match gw 0 with
  | Except.error e => ⟨msgs1, [msgs1], some e⟩
  | Except.ok message => tool_loop gw env maxToolCalls 1 message msgs1 [msgs1]

/-- A content block of a Claude response (`cia.py` lines 115-125): text, or
a tool-use request with its id, name and input. -/
inductive CBlock where
  | text (t : String)
  | toolUse (id : String) (name : String) (input : Args)
deriving DecidableEq, Repr

/-- A Claude messages-API response: its list of content blocks. -/
structure CResponse where
  content : List CBlock
deriving DecidableEq, Repr

/-- A transcript entry of `self.messages` in `cia.py`: the user string
appended at line 100, the tool-result user message built at lines 136-144,
and an assistant message holding the response's content blocks. -/
inductive CMsg where
  | user (content : String)
  | userToolResult (tool_use_id : String) (content : String)
  | assistantBlocks (blocks : List CBlock)
deriving DecidableEq, Repr

/-- The `tool_use` variable after the block scan of `cia.py` lines 113-125:
each `tool_use` block overwrites it, so the last one wins. -/
def find_tool_use (blocks : List CBlock) : Option CBlock :=
  blocks.foldl
    (fun acc b =>
      match b with
      | CBlock.toolUse _ _ _ => some b
      | CBlock.text _ => acc)
    none

/-- Result of one `cia.py` `send_message` run, in the shape of
`LoopState`; `fuelOut` marks the model artifact of cutting off the
source's unbounded `while True:` loop (the source has no round cap). -/
structure CiaState where
  messages : List CMsg
  submitted : List (List CMsg)
  err : Option String
  fuelOut : Bool
deriving DecidableEq, Repr

/-- Embedding of the `while True:` loop of `cia.py` `send_message` (lines
102-152).  Each iteration issues a request (an exception is caught by the
surrounding `try`: print, leaving the transcript as submitted); a `bash`
tool use appends the assistant blocks and the tool result, then continues;
any other tool use prints `Unknown tool` and breaks; no tool use breaks; on
`break` line 152 appends the assistant blocks once.  The shell executor is
the 120-second variant. -/
def cia_loop (gw : Nat → Except String CResponse) (shell : String → ShellOutcome) :
    Nat → Nat → List CMsg → List (List CMsg) → CiaState
  | 0, _, msgs, subm => ⟨msgs, subm, none, true⟩
  | fuel + 1, idx, msgs, subm =>
      match gw idx with
      | Except.error e => ⟨msgs, subm ++ [msgs], some e, false⟩
      | Except.ok response =>
          let subm' := subm ++ [msgs]
          match find_tool_use response.content with
          | some (CBlock.toolUse i name input) =>
              if name = "bash" then
                match List.lookup "command" input with
                | some (ArgVal.str command) =>
                    let result := (execute_shell_command_async 120 shell command).1
                    cia_loop gw shell fuel (idx + 1)
                      (msgs ++ [CMsg.assistantBlocks response.content,
                                CMsg.userToolResult i result])
                      subm'
                | _ => ⟨msgs, subm', some "KeyError: command", false⟩
              else
                ⟨msgs ++ [CMsg.assistantBlocks response.content], subm', none, false⟩
          | _ => ⟨msgs ++ [CMsg.assistantBlocks response.content], subm', none, false⟩

/-- Embedding of `cia.py` `send_message` lines 100-152: append the user
turn, then run the loop (the trailing `save_conversation` call of line 154
is persistence, modelled separately). -/
def cia_send_message (gw : Nat → Except String CResponse)
    (shell : String → ShellOutcome) (fuel : Nat) (msgs : List CMsg)
    (content : String) : CiaState :=
  cia_loop gw shell fuel 0 (msgs ++ [CMsg.user content]) []

/-- A JSON document: the values `json.dump`/`json.load` exchange with a
snapshot file for the data used by this program (strings, booleans,
`None`, lists, string-keyed dicts, in insertion order). -/
inductive J where
  | null
  | jbool (b : Bool)
  | str (s : String)
  | arr (items : List J)
  | obj (fields : List (String × J))

/-- JSON form of a parsed argument scalar. -/
def encodeArgVal : ArgVal → J
  | ArgVal.str s => J.str s
  | ArgVal.bool b => J.jbool b

/-- JSON form of a parsed argument dictionary. -/
def encodeArgs (args : Args) : J :=
  J.obj (args.map fun p => (p.1, encodeArgVal p.2))

/-- JSON form of a dumped tool call, as `message.model_dump()` serializes
it. -/
def encodeToolCall (tc : ToolCall) : J :=
  J.obj [("id", J.str tc.id), ("type", J.str "function"),
         ("function", J.obj [("name", J.str tc.function.name),
                             ("arguments", encodeArgs tc.function.arguments)])]

/-- JSON form of a nullable content string. -/
def encodeOptStr : Option String → J
  | none => J.null
  | some s => J.str s

/-- JSON form of one transcript entry, following the dict shapes `oia.py`
appends to `self.messages`. -/
def encodeMsg : Msg → J
  | Msg.user c => J.obj [("role", J.str "user"), ("content", J.str c)]
  | Msg.assistant c => J.obj [("role", J.str "assistant"), ("content", encodeOptStr c)]
  | Msg.assistantToolCalls c tcs =>
      J.obj [("role", J.str "assistant"), ("content", encodeOptStr c),
             ("tool_calls", J.arr (tcs.map encodeToolCall))]
  | Msg.toolResult i name c =>
      J.obj [("tool_call_id", J.str i), ("role", J.str "tool"),
             ("name", J.str name), ("content", J.str c)]

/-- Embedding of `save_conversation` (`oia.py` lines 292-296):
`json.dump(self.messages, f)` writes the transcript as one JSON array. -/
def save_conversation (messages : List Msg) : J :=
  J.arr (messages.map encodeMsg)

/-- Decoder for an argument scalar. -/
def decodeArgVal : J → Option ArgVal
  | J.str s => some (ArgVal.str s)
  | J.jbool b => some (ArgVal.bool b)
  | _ => none

/-- Decoder for an argument dictionary's field list. -/
def decodeArgsList : List (String × J) → Option Args
  | [] => some []
  | (k, v) :: rest => do
      let a ← decodeArgVal v
      let tail ← decodeArgsList rest
      some ((k, a) :: tail)

/-- Decoder for an argument dictionary. -/
def decodeArgs : J → Option Args
  | J.obj fields => decodeArgsList fields
  | _ => none

/-- Decoder for a dumped tool call. -/
def decodeToolCall : J → Option ToolCall
  | J.obj [("id", J.str i), ("type", J.str "function"),
           ("function", J.obj [("name", J.str name), ("arguments", a)])] => do
      let args ← decodeArgs a
      some ⟨i, ⟨name, args⟩⟩
  | _ => none

/-- Decoder for a list of dumped tool calls. -/
def decodeToolCallList : List J → Option (List ToolCall)
  | [] => some []
  | j :: rest => do
      let tc ← decodeToolCall j
      let tail ← decodeToolCallList rest
      some (tc :: tail)

/-- Decoder for a nullable content string. -/
def decodeOptStr : J → Option (Option String)
  | J.null => some none
  | J.str s => some (some s)
  | _ => none

/-- Decoder for one transcript entry. -/
def decodeMsg : J → Option Msg
  | J.obj [("role", J.str "user"), ("content", J.str c)] => some (Msg.user c)
  | J.obj [("role", J.str "assistant"), ("content", c)] => do
      let oc ← decodeOptStr c
      some (Msg.assistant oc)
  | J.obj [("role", J.str "assistant"), ("content", c), ("tool_calls", J.arr tcs)] => do
      let oc ← decodeOptStr c
      let calls ← decodeToolCallList tcs
      some (Msg.assistantToolCalls oc calls)
  | J.obj [("tool_call_id", J.str i), ("role", J.str "tool"),
           ("name", J.str name), ("content", J.str c)] =>
      some (Msg.toolResult i name c)
  | _ => none

/-- Decoder for a transcript entry list. -/
def decodeMsgList : List J → Option (List Msg)
  | [] => some []
  | j :: rest => do
      let m ← decodeMsg j
      let tail ← decodeMsgList rest
      some (m :: tail)

/-- Embedding of `load_conversation` (`oia.py` lines 298-304):
`self.messages = json.load(f)` reads the transcript back from the JSON
array. -/
def load_conversation : J → Option (List Msg)
  | J.arr items => decodeMsgList items
  | _ => none

/-- State of a snapshot file on disk: missing, present but not JSON
(so `json.load` raises `JSONDecodeError`), or holding a document. -/
inductive SnapshotFile where
  | absent
  | corrupt
  | wellFormed (doc : J)

/-- Embedding of `load_conversation_history` (`oia.py` lines 315-319): a
missing file leaves `self.messages` as the empty list; `json.load` is
called with no surrounding `try`, so a malformed file raises
`JSONDecodeError` out of the loader (and out of `__init__`).  A
well-formed document is modelled at the decoded transcript level. -/
def load_conversation_history (file : SnapshotFile) : Except String (List Msg) :=
  match file with
  | SnapshotFile.absent => Except.ok []
  | SnapshotFile.corrupt => Except.error "json.decoder.JSONDecodeError"
  | SnapshotFile.wellFormed doc => Except.ok ((load_conversation doc).getD [])

/-- Embedding of `load_conversation_history` (`cia.py` lines 266-276): a
missing file yields an empty history; `json.JSONDecodeError` is caught, a
warning is printed and the history falls back to empty; a well-formed file
assigns the decoded document as is.  The pair is the resulting
`self.conversation_history` (as a JSON value, the empty list being
`J.arr []`) and the printed diagnostic, if any. -/
def cia_load_conversation_history (file : SnapshotFile) : J × Option String :=
  match file with
  | SnapshotFile.absent => (J.arr [], none)
  | SnapshotFile.corrupt =>
      (J.arr [], some "Warning: Conversation history file is corrupt. Starting with an empty history.")
  | SnapshotFile.wellFormed doc => (doc, none)

/-- The tool names `process_tool_calls` (`oia.py` lines 126 and 130)
recognizes; any other requested name matches no branch. -/
def is_registered (name : String) : Bool :=
  name = "execute_shell_command" || name = "save_and_run_code"

/-- Whether a transcript holds a tool-result turn correlated with the
request id `i`. -/
def has_result_for (i : String) (msgs : List Msg) : Bool :=
  msgs.any fun m =>
    match m with
    | Msg.toolResult j _ _ => j = i
    | _ => false

/-- Whether an effect is a kill/terminate of a child process. -/
def isKillEffect : Effect → Bool
  | Effect.kill _ => true
  | Effect.spawn _ => false
  | Effect.fileWrite _ _ => false

/-- Relation between the transcripts of two consecutive chat-completion
requests of one `send_message_async` run: the later one extends the
earlier by the dumped assistant tool-call message and the batch's results,
and every request in the batch naming a registered tool has a correlated
result turn among them. -/
def round_extends (env : ToolEnv) (prev next : List Msg) : Prop :=
  ∃ c tcs results,
    process_tool_calls env tcs = Except.ok results ∧
    next = prev ++ Msg.assistantToolCalls c tcs :: results ∧
    ∀ tc ∈ tcs, is_registered tc.function.name = true →
      ∃ out, Msg.toolResult tc.id tc.function.name out ∈ results

/-- A shell oracle for concrete runs: every command finishes in one second
with exit status 0 and a short listing on stdout. -/
def sampleShell : String → ShellOutcome :=
  fun _ => ShellOutcome.runs 1 0 "files\n" ""

/-- A shell oracle under which every command runs for 1000 seconds. -/
def slowShell : String → ShellOutcome :=
  fun _ => ShellOutcome.runs 1000 0 "" ""

/-- A shell oracle under which every command fails in one second with exit
status 2 and a diagnostic on stderr. -/
def failShell : String → ShellOutcome :=
  fun _ => ShellOutcome.runs 1 2 "" "no such file\n"

/-- A concrete session environment. -/
def sampleEnv : ToolEnv := ⟨sampleShell, "20250101_000000"⟩

/-- A tool call naming a tool that is not registered. -/
def mystery_call : ToolCall := ⟨"call_1", ⟨"mystery_tool", []⟩⟩

/-- A well-formed shell tool call. -/
def shell_call : ToolCall :=
  ⟨"c1", ⟨"execute_shell_command", [("command", ArgVal.str "ls")]⟩⟩

/-- A gateway oracle whose first response requests the unregistered
`mystery_tool` and whose later responses are final text. -/
def gwC1 : Nat → Except String OAMessage := fun n =>
  if n = 0 then Except.ok ⟨none, [mystery_call]⟩
  else Except.ok ⟨some "done", []⟩

/-- A gateway oracle that requests another shell tool call on every
response, with no text content. -/
def gwCap : Nat → Except String OAMessage :=
  fun _ => Except.ok ⟨none, [shell_call]⟩

/-- A gateway oracle that raises a transport error on every request. -/
def gwErr : Nat → Except String OAMessage :=
  fun _ => Except.error "Connection error"

/-- A Claude gateway oracle that raises a transport error on every
request. -/
def cgwErr : Nat → Except String CResponse :=
  fun _ => Except.error "Connection error"

/-- A Claude gateway oracle whose first response uses an unknown tool
named `python` and whose later responses are plain text. -/
def cgwUnknown : Nat → Except String CResponse := fun n =>
  if n = 0 then Except.ok ⟨[CBlock.toolUse "t1" "python" []]⟩
  else Except.ok ⟨[CBlock.text "hello"]⟩

theorem decodeArgVal_encodeArgVal (a : ArgVal) :
    decodeArgVal (encodeArgVal a) = some a := by
  cases a <;> rfl

theorem decodeArgsList_encode (args : Args) :
    decodeArgsList (args.map fun p => (p.1, encodeArgVal p.2)) = some args := by
  induction args with
  | nil => rfl
  | cons p rest ih =>
      obtain ⟨k, v⟩ := p
      simp [decodeArgsList, decodeArgVal_encodeArgVal, ih]

theorem decodeArgs_encodeArgs (args : Args) :
    decodeArgs (encodeArgs args) = some args :=
  decodeArgsList_encode args

theorem decodeToolCall_encodeToolCall (tc : ToolCall) :
    decodeToolCall (encodeToolCall tc) = some tc := by
  obtain ⟨i, name, args⟩ := tc
  simp [encodeToolCall, decodeToolCall, decodeArgs_encodeArgs]

theorem decodeToolCallList_encode (tcs : List ToolCall) :
    decodeToolCallList (tcs.map encodeToolCall) = some tcs := by
  induction tcs with
  | nil => rfl
  | cons tc rest ih =>
      simp [decodeToolCallList, decodeToolCall_encodeToolCall, ih]

theorem decodeOptStr_encodeOptStr (c : Option String) :
    decodeOptStr (encodeOptStr c) = some c := by
  cases c <;> rfl

theorem decodeMsg_encodeMsg (m : Msg) : decodeMsg (encodeMsg m) = some m := by
  cases m with
  | user c => rfl
  | assistant c => cases c <;> rfl
  | assistantToolCalls c tcs =>
      cases c <;>
        simp [encodeMsg, decodeMsg, encodeOptStr, decodeOptStr,
          decodeToolCallList_encode]
  | toolResult i name c => rfl

theorem decodeMsgList_encode (T : List Msg) :
    decodeMsgList (T.map encodeMsg) = some T := by
  induction T with
  | nil => rfl
  | cons m rest ih => simp [decodeMsgList, decodeMsg_encodeMsg, ih]

/-- C7: for every reachable transcript `T`, restoring a snapshot of `T`
yields `T` again - saving the message list as its JSON document
(`save_conversation`, `json.dump`) and loading it back
(`load_conversation`, `json.load`) is the identity on the transcript. -/
theorem snapshot_restore_roundtrip (T : List Msg) :
    load_conversation (save_conversation T) = some T :=
  decodeMsgList_encode T

/-- C8 counterexample: in `oia.py`, `load_conversation_history` calls
`json.load` with no surrounding `try`, so a malformed snapshot file does
not yield an empty transcript with a diagnostic - the `JSONDecodeError`
propagates out of the loader (and out of `__init__`, aborting startup)
instead. -/
theorem corrupt_history_crashes_oia_loader :
    load_conversation_history SnapshotFile.corrupt =
      Except.error "json.decoder.JSONDecodeError" := rfl

/-- C8 amended: loading a malformed history file yields an empty history
plus a reported warning in the Claude variant (`cia.py`), whose loader
catches `JSONDecodeError`; in the OpenAI variant (`oia.py`) the decode
error propagates uncaught out of the loader. -/
theorem corrupt_history_handling_divergence :
    cia_load_conversation_history SnapshotFile.corrupt =
      (J.arr [],
       some "Warning: Conversation history file is corrupt. Starting with an empty history.") ∧
    load_conversation_history SnapshotFile.corrupt =
      Except.error "json.decoder.JSONDecodeError" :=
  ⟨rfl, rfl⟩

theorem parse_unregistered {tc : ToolCall}
    (h : is_registered tc.function.name = false) :
    parse_tool_call tc = Except.ok none := by
  have h' : ¬ tc.function.name = "execute_shell_command" ∧
      ¬ tc.function.name = "save_and_run_code" := by
    simpa [is_registered] using h
  unfold parse_tool_call
  rw [if_neg h'.1, if_neg h'.2]

theorem parse_registered {tc : ToolCall}
    (h : is_registered tc.function.name = true) :
    parse_tool_call tc ≠ Except.ok none := by
  have h' : tc.function.name = "execute_shell_command" ∨
      tc.function.name = "save_and_run_code" := by
    simpa [is_registered] using h
  unfold parse_tool_call
  rcases h' with h' | h'
  · rw [if_pos h']
    cases List.lookup "command" tc.function.arguments with
    | none => simp
    | some v => cases v <;> simp
  · have hne : ¬ tc.function.name = "execute_shell_command" := by
      rw [h']; decide
    rw [if_neg hne, if_pos h']
    cases List.lookup "code" tc.function.arguments with
    | none => simp
    | some v =>
        cases v with
        | str code =>
            cases List.lookup "language" tc.function.arguments with
            | none => simp
            | some w => cases w <;> simp
        | bool b => simp

theorem mk_tasks_mem_registered :
    ∀ {tcs : List ToolCall} {tasks : List (ToolCall × ToolJob)},
      mk_tasks tcs = Except.ok tasks →
      ∀ tc ∈ tcs, is_registered tc.function.name = true →
        ∃ job, (tc, job) ∈ tasks := by
  intro tcs
  induction tcs with
  | nil =>
      intro tasks _ tc htc
      simp at htc
  | cons hd rest ih =>
      intro tasks h tc htc hreg
      rw [mk_tasks] at h
      cases hp : parse_tool_call hd with
      | error e => rw [hp] at h; exact absurd h (by simp)
      | ok job =>
          rw [hp] at h
          cases hm : mk_tasks rest with
          | error e => rw [hm] at h; exact absurd h (by simp)
          | ok tail =>
              rw [hm] at h
              rcases List.mem_cons.mp htc with rfl | htc'
              · cases job with
                | none => exact absurd hp (parse_registered hreg)
                | some j =>
                    refine ⟨j, ?_⟩
                    have : tasks = (tc, j) :: tail := by
                      simpa using h.symm
                    rw [this]
                    exact List.mem_cons_self _ _
              · cases job with
                | none =>
                    obtain ⟨j, hj⟩ := ih hm tc htc' hreg
                    have : tasks = tail := by simpa using h.symm
                    exact ⟨j, this ▸ hj⟩
                | some j0 =>
                    obtain ⟨j, hj⟩ := ih hm tc htc' hreg
                    have : tasks = (hd, j0) :: tail := by simpa using h.symm
                    exact ⟨j, this ▸ List.mem_cons_of_mem _ hj⟩

theorem process_tool_calls_registered {env : ToolEnv} {tcs : List ToolCall}
    {results : List Msg} (h : process_tool_calls env tcs = Except.ok results) :
    ∀ tc ∈ tcs, is_registered tc.function.name = true →
      ∃ out, Msg.toolResult tc.id tc.function.name out ∈ results := by
  intro tc htc hreg
  unfold process_tool_calls at h
  cases hm : mk_tasks tcs with
  | error e => rw [hm] at h; exact absurd h (by simp [Except.map])
  | ok tasks =>
      rw [hm] at h
      obtain ⟨job, hjob⟩ := mk_tasks_mem_registered hm tc htc hreg
      refine ⟨run_tool_job env job, ?_⟩
      have hmem := List.mem_map_of_mem
        (fun t : ToolCall × ToolJob =>
          Msg.toolResult t.1.id t.1.function.name (run_tool_job env t.2)) hjob
      have hres : results =
          tasks.map fun t : ToolCall × ToolJob =>
            Msg.toolResult t.1.id t.1.function.name (run_tool_job env t.2) := by
        simpa [Except.map] using h.symm
      exact hres ▸ hmem

theorem chain'_concat_of_getLast {α : Type} {R : α → α → Prop} {l : List α}
    {x : α} (h : List.Chain' R l) (hx : ∀ y ∈ l.getLast?, R y x) :
    List.Chain' R (l ++ [x]) := by
  rw [List.chain'_append]
  refine ⟨h, List.chain'_singleton x, fun a ha y hy => ?_⟩
  simp at hy
  exact hy ▸ hx a ha

theorem tool_loop_chain (gw : Nat → Except String OAMessage) (env : ToolEnv) :
    ∀ (fuel idx : Nat) (message : OAMessage) (msgs : List Msg)
      (subm : List (List Msg)),
      msgs = subm.getLastD [] →
      List.Chain' (round_extends env) subm →
      List.Chain' (round_extends env)
        (tool_loop gw env fuel idx message msgs subm).submitted := by
  intro fuel
  induction fuel with
  | zero =>
      intro idx message msgs subm _ hchain
      rw [tool_loop]
      exact hchain
  | succ n ih =>
      intro idx message msgs subm hlast hchain
      rw [tool_loop]
      by_cases hemp : message.tool_calls.isEmpty
      · rw [if_pos hemp]
        exact hchain
      · rw [if_neg hemp]
        cases hp : process_tool_calls env message.tool_calls with
        | error e => exact hchain
        | ok results =>
            have hrel : ∀ y ∈ subm.getLast?,
                round_extends env y
                  (msgs ++ Msg.assistantToolCalls message.content
                    message.tool_calls :: results) := by
              intro y hy
              have hym : y = msgs := by
                rw [hlast, List.getLastD_eq_getLast?, hy]
                rfl
              exact ⟨message.content, message.tool_calls, results, hp,
                by rw [hym], process_tool_calls_registered hp⟩
            cases hg : gw idx with
            | error e =>
                exact chain'_concat_of_getLast hchain hrel
            | ok next =>
                exact ih (idx + 1) next _ _
                  (List.getLastD_concat _ _ _).symm
                  (chain'_concat_of_getLast hchain hrel)

theorem tool_loop_err_messages (gw : Nat → Except String OAMessage)
    (env : ToolEnv) :
    ∀ (fuel idx : Nat) (message : OAMessage) (msgs : List Msg)
      (subm : List (List Msg)),
      msgs = subm.getLastD [] →
      ∀ e, (tool_loop gw env fuel idx message msgs subm).err = some e →
        (tool_loop gw env fuel idx message msgs subm).messages =
          (tool_loop gw env fuel idx message msgs subm).submitted.getLastD [] := by
  intro fuel
  induction fuel with
  | zero =>
      intro idx message msgs subm _ e he
      rw [tool_loop] at he
      exact absurd he (by simp)
  | succ n ih =>
      intro idx message msgs subm hlast e he
      rw [tool_loop] at he ⊢
      by_cases hemp : message.tool_calls.isEmpty
      · rw [if_pos hemp] at he
        exact absurd he (by simp)
      · rw [if_neg hemp] at he ⊢
        cases hp : process_tool_calls env message.tool_calls with
        | error e' => exact hlast
        | ok results =>
            rw [hp] at he
            dsimp only at he ⊢
            cases hg : gw idx with
            | error e' =>
                dsimp only
                simp [List.getLastD_concat]
            | ok next =>
                rw [hg] at he
                dsimp only at he ⊢
                exact ih (idx + 1) next _ _
                  (List.getLastD_concat _ _ _).symm e he

theorem tool_loop_submitted_length (gw : Nat → Except String OAMessage)
    (env : ToolEnv) :
    ∀ (fuel idx : Nat) (message : OAMessage) (msgs : List Msg)
      (subm : List (List Msg)),
      (tool_loop gw env fuel idx message msgs subm).submitted.length ≤
        subm.length + fuel := by
  intro fuel
  induction fuel with
  | zero =>
      intro idx message msgs subm
      rw [tool_loop]
      simp
  | succ n ih =>
      intro idx message msgs subm
      rw [tool_loop]
      by_cases hemp : message.tool_calls.isEmpty
      · rw [if_pos hemp]
        simp
      · rw [if_neg hemp]
        cases hp : process_tool_calls env message.tool_calls with
        | error e => simp
        | ok results =>
            dsimp only
            cases hg : gw idx with
            | error e =>
                dsimp only
                simp only [List.length_append, List.length_singleton]
                omega
            | ok next =>
                dsimp only
                calc (tool_loop gw env n (idx + 1) next _ _).submitted.length
                    ≤ (subm ++ [_]).length + n := ih _ _ _ _
                  _ ≤ subm.length + (n + 1) := by
                      simp only [List.length_append, List.length_singleton]
                      omega

theorem cia_loop_err_messages (gw : Nat → Except String CResponse)
    (shell : String → ShellOutcome) :
    ∀ (fuel idx : Nat) (msgs : List CMsg) (subm : List (List CMsg)),
      ∀ e, (cia_loop gw shell fuel idx msgs subm).err = some e →
        (cia_loop gw shell fuel idx msgs subm).messages =
          (cia_loop gw shell fuel idx msgs subm).submitted.getLastD [] := by
  intro fuel
  induction fuel with
  | zero =>
      intro idx msgs subm e he
      rw [cia_loop] at he
      exact absurd he (by simp)
  | succ n ih =>
      intro idx msgs subm e he
      rw [cia_loop] at he ⊢
      cases hg : gw idx with
      | error e' =>
          dsimp only
          simp [List.getLastD_concat]
      | ok response =>
          rw [hg] at he
          dsimp only at he ⊢
          cases hf : find_tool_use response.content with
          | none =>
              rw [hf] at he
              exact absurd he (by simp)
          | some b =>
              rw [hf] at he
              cases b with
              | text t => exact absurd he (by simp)
              | toolUse i name input =>
                  dsimp only at he ⊢
                  by_cases hb : name = "bash"
                  · rw [if_pos hb] at he ⊢
                    cases hl : List.lookup "command" input with
                    | none =>
                        rw [hl] at he
                        dsimp only
                        simp [List.getLastD_concat]
                    | some v =>
                        cases v with
                        | str command =>
                            rw [hl] at he
                            dsimp only at he ⊢
                            exact ih (idx + 1) _ _ e he
                        | bool bv =>
                            rw [hl] at he
                            dsimp only
                            simp [List.getLastD_concat]
                  · rw [if_neg hb] at he
                    exact absurd he (by simp)

/-- C3: whenever a round's model call fails (a transport-level error from
the endpoint, caught by the round's `except`), the loop surfaces the error
and leaves the transcript exactly as it was submitted to the aborted call:
no partial assistant-text or assistant-tool-request turn is appended after
it, so a retry resubmits from the same state.  This holds for the OpenAI
loop (`oia.py` `send_message_async`) and the Claude loop (`cia.py`
`send_message`). -/
theorem transport_error_leaves_transcript_as_submitted :
    (∀ (gw : Nat → Except String OAMessage) (env : ToolEnv) (maxT : Nat)
        (msgs : List Msg) (content : String) (e : String),
        (send_message_async gw env maxT msgs content).err = some e →
        (send_message_async gw env maxT msgs content).messages =
          (send_message_async gw env maxT msgs content).submitted.getLastD []) ∧
    (∀ (gw : Nat → Except String CResponse) (shell : String → ShellOutcome)
        (fuel : Nat) (msgs : List CMsg) (content : String) (e : String),
        (cia_send_message gw shell fuel msgs content).err = some e →
        (cia_send_message gw shell fuel msgs content).messages =
          (cia_send_message gw shell fuel msgs content).submitted.getLastD []) := by
  constructor
  · intro gw env maxT msgs content e he
    rw [send_message_async] at he ⊢
    cases hg : gw 0 with
    | error e' =>
        dsimp only
        simp [List.getLastD]
    | ok message =>
        rw [hg] at he
        dsimp only at he ⊢
        exact tool_loop_err_messages gw env maxT 1 message _ _ (by simp) e he
  · intro gw shell fuel msgs content e he
    rw [cia_send_message] at he ⊢
    exact cia_loop_err_messages gw shell fuel 0 _ _ e he

/-- C3 witness: a gateway that raises a connection error on the first
request leaves each loop's transcript equal to the transcript submitted to
the aborted call. -/
theorem transport_error_leaves_transcript_as_submitted_check :
    (send_message_async gwErr sampleEnv 128 [] "hi").messages =
      (send_message_async gwErr sampleEnv 128 [] "hi").submitted.getLastD [] ∧
    (cia_send_message cgwErr sampleShell 8 [] "hi").messages =
      (cia_send_message cgwErr sampleShell 8 [] "hi").submitted.getLastD [] :=
  ⟨transport_error_leaves_transcript_as_submitted.1 gwErr sampleEnv 128 [] "hi"
      "Connection error" (by decide),
   transport_error_leaves_transcript_as_submitted.2 cgwErr sampleShell 8 [] "hi"
      "Connection error" (by decide)⟩

/-- C1 counterexample: an assistant response whose single tool request
names the unregistered `mystery_tool` is processed into an empty result
list, yet the loop issues a second model call: the second submitted
transcript contains the request (id `call_1`) but no tool-result turn
correlated with it, refuting "does not issue the next model call until
every request in the batch has produced a corresponding tool-result
turn". -/
theorem unknown_tool_request_resubmitted_without_result :
    (send_message_async gwC1 sampleEnv 128 [] "hi").submitted.length = 2 ∧
    (send_message_async gwC1 sampleEnv 128 [] "hi").submitted.getLastD [] =
      [Msg.user "hi", Msg.assistantToolCalls none [mystery_call]] ∧
    has_result_for "call_1"
      ((send_message_async gwC1 sampleEnv 128 [] "hi").submitted.getLastD []) =
        false ∧
    (send_message_async gwC1 sampleEnv 128 [] "hi").err = none := by
  decide

/-- C1 amended: the loop never resubmits mid-batch - each successive
model-call transcript extends the previous one by the assistant tool-call
turn followed by the whole batch's results, computed before the next call
is issued, and every request naming a registered tool
(`execute_shell_command`, `save_and_run_code`) has a correlated result
turn among them; requests naming an unregistered tool, however, are
silently dropped without a result turn, so such batches are resubmitted
incomplete. -/
theorem tool_batches_joined_before_resubmit
    (gw : Nat → Except String OAMessage) (env : ToolEnv) (maxT : Nat)
    (msgs : List Msg) (content : String) :
    List.Chain' (round_extends env)
      (send_message_async gw env maxT msgs content).submitted := by
  rw [send_message_async]
  cases hg : gw 0 with
  | error e => exact List.chain'_singleton _
  | ok message =>
      exact tool_loop_chain gw env maxT 1 message _ _ (by simp)
        (List.chain'_singleton _)

/-- C2 counterexample: with the cap set to 2 and a model that requests
another shell tool call on every response (with `content = None`), the
loop stops after two tool rounds and three model calls, but the terminal
turn it appends is `{"role": "assistant", "content": None}` - the last
model message's content verbatim, which carries no text at all - not a
synthetic assistant turn noting truncation. -/
theorem cap_appends_model_content_not_truncation_notice :
    (send_message_async gwCap sampleEnv 2 [] "go").submitted.length = 3 ∧
    (send_message_async gwCap sampleEnv 2 [] "go").messages.getLast? =
      some (Msg.assistant none) ∧
    (send_message_async gwCap sampleEnv 2 [] "go").err = none := by
  decide

/-- C2 amended: the loop performs at most `maxToolCalls` tool rounds - the
number of model calls never exceeds `maxToolCalls + 1` (one initial call
plus one per round), so once the counter reaches the cap no further model
call is made; on reaching the cap it appends exactly one terminal
assistant turn holding the last model message's `content` verbatim (no
synthetic truncation notice).  Concretely, with cap 2 and a model that
always requests another shell call, the run makes exactly 3 model calls
and ends with the `content = None` assistant turn. -/
theorem max_tool_call_rounds_cap (gw : Nat → Except String OAMessage)
    (env : ToolEnv) (maxT : Nat) (msgs : List Msg) (content : String) :
    (send_message_async gw env maxT msgs content).submitted.length ≤ maxT + 1 ∧
    (send_message_async gwCap sampleEnv 2 [] "go").messages =
      [Msg.user "go", Msg.assistantToolCalls none [shell_call],
       Msg.toolResult "c1" "execute_shell_command" "files\n",
       Msg.assistantToolCalls none [shell_call],
       Msg.toolResult "c1" "execute_shell_command" "files\n",
       Msg.assistant none] ∧
    (send_message_async gwCap sampleEnv 2 [] "go").submitted.length = 3 := by
  refine ⟨?_, by decide, by decide⟩
  rw [send_message_async]
  cases hg : gw 0 with
  | error e => simp
  | ok message =>
      have h := tool_loop_submitted_length gw env maxT 1 message
        (msgs ++ [Msg.user content]) [msgs ++ [Msg.user content]]
      simpa [Nat.add_comm] using h

theorem mk_tasks_all_unregistered :
    ∀ tcs : List ToolCall,
      (∀ tc ∈ tcs, is_registered tc.function.name = false) →
      mk_tasks tcs = Except.ok [] := by
  intro tcs
  induction tcs with
  | nil => intro _; rfl
  | cons hd rest ih =>
      intro h
      rw [mk_tasks, parse_unregistered (h hd (List.mem_cons_self _ _)),
        ih fun tc htc => h tc (List.mem_cons_of_mem _ htc)]

/-- C4 counterexample: a batch consisting of one invocation naming the
unregistered `mystery_tool` is processed into the empty result list - the
invocation is not converted into any failure tool-result turn; it is left
without a result turn entirely. -/
theorem unknown_tool_yields_no_result_turn :
    process_tool_calls sampleEnv [mystery_call] = Except.ok [] := by
  rw [process_tool_calls, mk_tasks_all_unregistered [mystery_call] (by decide)]
  rfl

/-- C4 amended: an unknown tool name is never a process-fatal error, but it
is not converted into a failed tool-result turn either.  In the OpenAI
loop (`oia.py`), a batch of requests naming only unregistered tools is
processed without exception into an empty result list, leaving every
request unanswered; in the Claude loop (`cia.py`), a response using an
unknown tool ends the round after a console diagnostic: the assistant
turn (including its tool-use block) is appended, no tool-result turn is
produced, no further model call is made, and no error is raised. -/
theorem unknown_tool_not_fatal_but_unanswered :
    (∀ (env : ToolEnv) (tcs : List ToolCall),
        (∀ tc ∈ tcs, is_registered tc.function.name = false) →
        process_tool_calls env tcs = Except.ok []) ∧
    (∀ (gw : Nat → Except String CResponse) (shell : String → ShellOutcome)
        (fuel : Nat) (msgs : List CMsg) (content : String)
        (blocks : List CBlock) (i name : String) (input : Args),
        gw 0 = Except.ok ⟨blocks⟩ →
        find_tool_use blocks = some (CBlock.toolUse i name input) →
        name ≠ "bash" →
        cia_send_message gw shell (fuel + 1) msgs content =
          ⟨msgs ++ [CMsg.user content, CMsg.assistantBlocks blocks],
           [msgs ++ [CMsg.user content]], none, false⟩) := by
  constructor
  · intro env tcs h
    rw [process_tool_calls, mk_tasks_all_unregistered tcs h]
    rfl
  · intro gw shell fuel msgs content blocks i name input hg hf hb
    rw [cia_send_message, cia_loop, hg]
    dsimp only
    rw [hf]
    dsimp only
    rw [if_neg hb]
    simp

/-- C4 witness: the unregistered `mystery_tool` batch processes to no
result turns in the OpenAI loop, and a Claude response using the unknown
tool `python` ends the round with the assistant turn appended, no result
turn, and no error. -/
theorem unknown_tool_not_fatal_but_unanswered_check :
    process_tool_calls sampleEnv [mystery_call] = Except.ok [] ∧
    cia_send_message cgwUnknown sampleShell 8 [] "run python" =
      ⟨[CMsg.user "run python",
        CMsg.assistantBlocks [CBlock.toolUse "t1" "python" []]],
       [[CMsg.user "run python"]], none, false⟩ :=
  ⟨unknown_tool_not_fatal_but_unanswered.1 sampleEnv [mystery_call] (by decide),
   unknown_tool_not_fatal_but_unanswered.2 cgwUnknown sampleShell 7 []
     "run python" [CBlock.toolUse "t1" "python" []] "t1" "python" []
     rfl rfl (by decide)⟩

/-- C5 counterexample: under a shell where every command runs for 1000
seconds, the 30-second executor returns the timeout-marker result, but its
recorded side effects are the spawn alone - the `except
asyncio.TimeoutError:` branch only returns a string message and never
kills or terminates the child process, refuting "the child process is
forcibly terminated". -/
theorem timeout_does_not_kill_child :
    execute_shell_command_async 30 slowShell "sleep 100" =
      ("Command execution timed out", [Effect.spawn "sleep 100"]) ∧
    (execute_shell_command_async 30 slowShell "sleep 100").2.any isKillEffect =
      false := by
  decide

/-- C5 amended: a shell command running longer than `perToolTimeout` (30
seconds in the OpenAI variants, 120 seconds in the Claude variant) makes
the executor return the timeout-marker failure result without raising, and
the loop feeds it back as an ordinary tool-result turn, so the timeout is
never fatal to the session; however, the executor performs no kill - the
child process is not terminated, only the await on it is abandoned. -/
theorem timeout_returns_marker_without_kill (shell : String → ShellOutcome)
    (cmd now cid : String) (d : Nat) (rc : Int) (out errS : String)
    (hrun : shell cmd = ShellOutcome.runs d rc out errS) (ht : 30 < d) :
    execute_shell_command_async 30 shell cmd =
      ("Command execution timed out", [Effect.spawn cmd]) ∧
    (execute_shell_command_async 30 shell cmd).2.any isKillEffect = false ∧
    process_tool_calls ⟨shell, now⟩
        [⟨cid, ⟨"execute_shell_command", [("command", ArgVal.str cmd)]⟩⟩] =
      Except.ok
        [Msg.toolResult cid "execute_shell_command" "Command execution timed out"] ∧
    (120 < d → execute_shell_command_async 120 shell cmd =
      ("Command execution timed out", [Effect.spawn cmd])) := by
  have h30 : execute_shell_command_async 30 shell cmd =
      ("Command execution timed out", [Effect.spawn cmd]) := by
    rw [execute_shell_command_async, hrun]
    dsimp only
    rw [if_pos ht]
  refine ⟨h30, by rw [h30]; rfl, ?_, fun h120 => by
    rw [execute_shell_command_async, hrun]
    dsimp only
    rw [if_pos h120]⟩
  rw [process_tool_calls, mk_tasks]
  simp [parse_tool_call, mk_tasks, run_tool_job, h30, List.lookup, Except.map]

/-- C5 witness: under the 1000-second shell, the 30-second executor times
out with no kill effect and the batch result is the timeout-marked
tool-result turn; the 120-second executor times out as well. -/
theorem timeout_returns_marker_without_kill_check :
    execute_shell_command_async 30 slowShell "sleep 900" =
      ("Command execution timed out", [Effect.spawn "sleep 900"]) ∧
    (execute_shell_command_async 30 slowShell "sleep 900").2.any isKillEffect =
      false ∧
    process_tool_calls ⟨slowShell, "20250101_000000"⟩
        [⟨"t9", ⟨"execute_shell_command", [("command", ArgVal.str "sleep 900")]⟩⟩] =
      Except.ok
        [Msg.toolResult "t9" "execute_shell_command" "Command execution timed out"] ∧
    (120 < 1000 → execute_shell_command_async 120 slowShell "sleep 900" =
      ("Command execution timed out", [Effect.spawn "sleep 900"])) :=
  timeout_returns_marker_without_kill slowShell "sleep 900" "20250101_000000"
    "t9" 1000 0 "" "" rfl (by decide)

/-- C6: a shell command that finishes within the timeout but exits with a
non-zero status yields a failure result whose output embeds the captured
stderr; the executor returns it as a plain value (the embedding is total -
no exception reaches the caller), the loop converts it into an ordinary
tool-result turn fed back to the model, and the `ochatb.py` variant
behaves the same with its decorated failure string. -/
theorem nonzero_exit_reports_stderr (shell : String → ShellOutcome)
    (cmd now cid : String) (d : Nat) (rc : Int) (out errS : String)
    (hrun : shell cmd = ShellOutcome.runs d rc out errS) (hd : ¬ 30 < d)
    (hrc : rc ≠ 0) :
    (execute_shell_command_async 30 shell cmd).1 =
      "Command exited with non-zero status. Stderr: " ++ errS ∧
    errS.data <:+: (execute_shell_command_async 30 shell cmd).1.data ∧
    process_tool_calls ⟨shell, now⟩
        [⟨cid, ⟨"execute_shell_command", [("command", ArgVal.str cmd)]⟩⟩] =
      Except.ok [Msg.toolResult cid "execute_shell_command"
        ("Command exited with non-zero status. Stderr: " ++ errS)] ∧
    ochatb_execute_shell_command_async shell cmd =
      ("[31mOops! Command threw a tantrum. Stderr says:[0m " ++ errS,
       [Effect.spawn cmd]) := by
  have h1 : execute_shell_command_async 30 shell cmd =
      ("Command exited with non-zero status. Stderr: " ++ errS,
       [Effect.spawn cmd]) := by
    rw [execute_shell_command_async, hrun]
    dsimp only
    rw [if_neg hd, if_pos hrc]
  refine ⟨by rw [h1], ?_, ?_, ?_⟩
  · rw [h1]
    exact List.IsSuffix.isInfix
      ⟨("Command exited with non-zero status. Stderr: ").data,
       (String.data_append _ _).symm⟩
  · rw [process_tool_calls, mk_tasks]
    simp [parse_tool_call, mk_tasks, run_tool_job, h1, List.lookup, Except.map]
  · rw [ochatb_execute_shell_command_async, hrun]
    dsimp only
    rw [if_neg hd, if_pos hrc]

/-- C6 witness: a command exiting with status 2 after one second reports
its stderr through the failure result, the batch result turn, and the
`ochatb.py` variant's decorated string. -/
theorem nonzero_exit_reports_stderr_check :
    (execute_shell_command_async 30 failShell "ls /nope").1 =
      "Command exited with non-zero status. Stderr: " ++ "no such file\n" ∧
    ("no such file\n").data <:+:
      (execute_shell_command_async 30 failShell "ls /nope").1.data ∧
    process_tool_calls ⟨failShell, "20250101_000000"⟩
        [⟨"t2", ⟨"execute_shell_command", [("command", ArgVal.str "ls /nope")]⟩⟩] =
      Except.ok [Msg.toolResult "t2" "execute_shell_command"
        ("Command exited with non-zero status. Stderr: " ++ "no such file\n")] ∧
    ochatb_execute_shell_command_async failShell "ls /nope" =
      ("[31mOops! Command threw a tantrum. Stderr says:[0m " ++ "no such file\n",
       [Effect.spawn "ls /nope"]) :=
  nonzero_exit_reports_stderr failShell "ls /nope" "20250101_000000" "t2"
    1 2 "" "no such file\n" rfl (by decide) (by decide)

theorem slash_mem_script_path (now language : String) :
    '/' ∈ (script_path now language).data := by
  have hmem : '/' ∈ ("scripts/" : String).data := by decide
  unfold script_path
  rw [String.data_append, String.data_append, String.data_append]
  exact List.mem_append_left _ (List.mem_append_left _
    (List.mem_append_left _ hmem))

theorem extensionFor_not_known {lang : String}
    (hl : strLower lang ∉ knownLangs) : extensionFor lang = ".txt" := by
  simp only [knownLangs, List.mem_cons, List.mem_singleton, not_or] at hl
  obtain ⟨n1, n2, n3, n4, n5, n6, n7, n8, n9, n10, n11, -⟩ := hl
  unfold extensionFor
  dsimp only
  split_ifs
  rfl

theorem save_and_run_unsupported {shell : String → ShellOutcome}
    {now code language : String}
    (h : extensionFor language ∉ ([".py", ".sh", ".go", ".rb"] : List String)) :
    save_and_run_code_async 30 shell now code language true =
      ("Execution not supported for language: " ++ language,
       [Effect.fileWrite (script_path now language) code]) := by
  simp only [List.mem_cons, List.mem_singleton, not_or] at h
  obtain ⟨e1, e2, e3, e4⟩ := h
  simp [save_and_run_code_async, e1, e2, e3, e4]

/-- C9: every `save_and_run_code` invocation writes the code to the
timestamp-named file under the fixed `scripts/` directory, with the
extension chosen by the static language → extension table (python → .py,
javascript → .js, bash → .sh, c → .c, cpp → .cpp, java → .java, go → .go,
ruby → .rb, perl → .pl, php → .php, rust → .rs); a language outside the
table gets the plain-text extension `.txt`, and `execute = true` for a
language whose extension has no known runner command returns the
unsupported-language message as a plain result, not a crash. -/
theorem save_and_run_code_language_table (shell : String → ShellOutcome)
    (now code language : String)
    (h : extensionFor language ∉ ([".py", ".sh", ".go", ".rb"] : List String)) :
    (extensionFor "python" = ".py" ∧ extensionFor "javascript" = ".js" ∧
     extensionFor "bash" = ".sh" ∧ extensionFor "c" = ".c" ∧
     extensionFor "cpp" = ".cpp" ∧ extensionFor "java" = ".java" ∧
     extensionFor "go" = ".go" ∧ extensionFor "ruby" = ".rb" ∧
     extensionFor "perl" = ".pl" ∧ extensionFor "php" = ".php" ∧
     extensionFor "rust" = ".rs") ∧
    (∀ lang, strLower lang ∉ knownLangs → extensionFor lang = ".txt") ∧
    (∀ (lang : String) (execute : Bool),
        Effect.fileWrite (script_path now lang) code ∈
          (save_and_run_code_async 30 shell now code lang execute).2) ∧
    save_and_run_code_async 30 shell now code language true =
      ("Execution not supported for language: " ++ language,
       [Effect.fileWrite (script_path now language) code]) := by
  refine ⟨by decide, fun lang hl => extensionFor_not_known hl, ?_,
    save_and_run_unsupported h⟩
  intro lang execute
  cases execute with
  | false => simp [save_and_run_code_async]
  | true =>
      rw [save_and_run_code_async]
      simp only [if_true]
      split <;> simp

/-- C9 witness: the unknown language `haskell` falls outside the table,
gets `.txt`, and `execute = true` yields the unsupported-language result
while the file write still targets `scripts/20250101_000000_script.txt`. -/
theorem save_and_run_code_language_table_check :
    extensionFor "haskell" ∉ ([".py", ".sh", ".go", ".rb"] : List String) ∧
    strLower "haskell" ∉ knownLangs ∧
    save_and_run_code_async 30 sampleShell "20250101_000000" "main = x"
        "haskell" true =
      ("Execution not supported for language: haskell",
       [Effect.fileWrite "scripts/20250101_000000_script.txt" "main = x"]) := by
  refine ⟨by decide, by decide, ?_⟩
  have h := (save_and_run_code_language_table sampleShell "20250101_000000"
    "main = x" "haskell" (by decide)).2.2.2
  rw [h]
  decide

/-- C10: for `save_and_run_code` with `execute = true` and a language whose
extension has no runner command, the file write has already happened and
its effect persists - the code is on disk at the timestamp-named path -
yet the returned result is only the unsupported-language message and never
mentions the saved file's path (the message contains no `/`, while the
path does, provided the language string itself has no `/`). -/
theorem unsupported_language_still_writes_file (shell : String → ShellOutcome)
    (now code language : String)
    (h1 : extensionFor language ∉ ([".py", ".sh", ".go", ".rb"] : List String))
    (h2 : '/' ∉ language.data) :
    Effect.fileWrite (script_path now language) code ∈
      (save_and_run_code_async 30 shell now code language true).2 ∧
    (save_and_run_code_async 30 shell now code language true).1 =
      "Execution not supported for language: " ++ language ∧
    ¬ (script_path now language).data <:+:
      (save_and_run_code_async 30 shell now code language true).1.data := by
  have heq := @save_and_run_unsupported shell now code language h1
  refine ⟨by rw [heq]; simp, by rw [heq], ?_⟩
  intro hinf
  have hslash := hinf.subset (slash_mem_script_path now language)
  rw [heq] at hslash
  dsimp only at hslash
  rw [String.data_append] at hslash
  rcases List.mem_append.mp hslash with hin | hin
  · exact absurd hin (by decide)
  · exact absurd hin h2

/-- C10 witness: with language `javascript` (extension `.js`, no runner),
the write effect targets the script path while the returned message does
not contain that path. -/
theorem unsupported_language_still_writes_file_check :
    extensionFor "javascript" ∉ ([".py", ".sh", ".go", ".rb"] : List String) ∧
    '/' ∉ ("javascript" : String).data ∧
    Effect.fileWrite (script_path "20250101_000000" "javascript") "x = 1" ∈
      (save_and_run_code_async 30 sampleShell "20250101_000000" "x = 1"
        "javascript" true).2 ∧
    ¬ (script_path "20250101_000000" "javascript").data <:+:
      (save_and_run_code_async 30 sampleShell "20250101_000000" "x = 1"
        "javascript" true).1.data :=
  ⟨by decide, by decide,
   (unsupported_language_still_writes_file sampleShell "20250101_000000"
     "x = 1" "javascript" (by decide) (by decide)).1,
   (unsupported_language_still_writes_file sampleShell "20250101_000000"
     "x = 1" "javascript" (by decide) (by decide)).2.2⟩

end Gait

